import Mathlib

/-!
# Verification of the book-alchemy library application

Shallow embedding of `src/data_models.py` and `src/app.py`: the two
SQLAlchemy entities (`Author`, `Book`), the relational store state, and the
four request handlers (`home` list/search, `add_author`, `add_book`,
`delete_book`), together with proofs of the specified properties.

Conventions of the embedding:
* The relational store is a `DB` value; the ambient SQLAlchemy session is
  explicit state passing: each handler maps `(DB, form input)` to
  `(Outcome, DB)`, where a rollback path returns the input `DB` unchanged.
* Python `date` objects are `Date` triples ordered lexicographically, as
  Python orders them; `date.today()` is a `today : Date` parameter.
* `datetime.strptime(s, "%Y-%m-%d").date()` is `parseDate` (CPython's
  `_strptime` matches `%Y` as exactly four digits and `%m`/`%d` as one or
  two digits, then `date` validates the calendar ranges, year 1..9999).
* Python `str.strip()` is `pyStrip` (over the ASCII whitespace characters;
  non-ASCII Unicode whitespace is not exercised by any property here),
  `int(s)` is `pyInt`.
* SQLAlchemy's `ilike` is SQL `LIKE` with SQLite's ASCII-only case
  folding: `likeMatch` on `sqlLower`-folded character lists.
* `db.session.commit()` enforces what SQLite actually checks at runtime:
  primary-key uniqueness and the non-null columns.  The
  `ForeignKey("author.id")` declared on `Book.author_id` is NOT enforced —
  SQLite ignores foreign keys unless `PRAGMA foreign_keys=ON` is issued
  per connection and neither `app.py` nor Flask-SQLAlchemy does so — and
  the schema declares no `unique` flag on any non-key column
  (`ColumnSpec` records the declarations).
-/

namespace BookAlchemy

/-! ## Dates -/

/-- A calendar date, as CPython's `datetime.date`: year, month, day. -/
structure Date where
  y : Nat
  m : Nat
  d : Nat
  deriving DecidableEq, Repr

/-- Python compares `date` values lexicographically by (year, month, day). -/
def dateLt (a b : Date) : Bool :=
  decide (a.y < b.y ∨ (a.y = b.y ∧ (a.m < b.m ∨ (a.m = b.m ∧ a.d < b.d))))

/-- `is_in_future` from `app.py`: `d > date.today()`, with `date.today()`
passed in as `today`. -/
def is_in_future (today : Date) (d : Date) : Bool :=
  dateLt today d

/-- Gregorian leap-year rule used by `datetime.date`. -/
def isLeap (y : Nat) : Bool :=
  decide ((y % 4 = 0 ∧ y % 100 ≠ 0) ∨ y % 400 = 0)

/-- Number of days in a month, as validated by `datetime.date`. -/
def daysInMonth (y m : Nat) : Nat :=
  if m = 2 then (if isLeap y then 29 else 28)
  else if m = 4 ∨ m = 6 ∨ m = 9 ∨ m = 11 then 30
  else 31

/-- Decimal value of a digit list. -/
def digitsToNat (l : List Char) : Nat :=
  l.foldl (fun n c => n * 10 + (c.toNat - 48)) 0

/-- A run of `lo` to `hi` ASCII digits, as matched by a `strptime` field
directive (`%Y` uses 4..4, `%m` and `%d` use 1..2). -/
def parseField (s : List Char) (lo hi : Nat) : Option Nat :=
  if lo ≤ s.length ∧ s.length ≤ hi ∧ s.all Char.isDigit = true then
    some (digitsToNat s)
  else none

/-- Split a character list at every `'-'` (the separators of the
`"%Y-%m-%d"` format string). -/
def splitDash : List Char → List (List Char)
  | [] => [[]]
  | c :: rest =>
    if c = '-' then [] :: splitDash rest
    else
      match splitDash rest with
      | [] => [[c]]
      | g :: gs => (c :: g) :: gs

/-- `datetime.strptime(s, "%Y-%m-%d").date()`: three dash-separated digit
fields, year exactly four digits, month/day one or two, then the calendar
range checks of `datetime.date` (year 1..9999).  `none` models the
`ValueError` raised on malformed input. -/
def parseDate (s : String) : Option Date :=
  match splitDash s.data with
  | [ys, ms, ds] =>
    match parseField ys 4 4, parseField ms 1 2, parseField ds 1 2 with
    | some y, some m, some d =>
      if 1 ≤ y ∧ y ≤ 9999 ∧ 1 ≤ m ∧ m ≤ 12 ∧ 1 ≤ d ∧ d ≤ daysInMonth y m then
        some ⟨y, m, d⟩
      else none
    | _, _, _ => none
  | _ => none

/-! ## Python string helpers -/

/-- ASCII whitespace stripped by `str.strip()`. -/
def pyIsSpace (c : Char) : Bool :=
  decide (c = ' ' ∨ c = '\t' ∨ c = '\n' ∨ c = '\x0d' ∨ c = '\x0b' ∨ c = '\x0c')

/-- Python `str.strip()`: drop leading and trailing whitespace. -/
def pyStrip (s : String) : String :=
  ⟨((s.data.dropWhile pyIsSpace).reverse.dropWhile pyIsSpace).reverse⟩

/-- Python `int(s)` on a decimal string: surrounding whitespace allowed,
optional sign, then digits; `none` models the `ValueError` on anything
else.  (Python also accepts `_` digit grouping; no input here uses it.) -/
def pyInt (s : String) : Option Int :=
  match (pyStrip s).data with
  | '+' :: rest =>
    if rest ≠ [] ∧ rest.all Char.isDigit = true then some (digitsToNat rest) else none
  | '-' :: rest =>
    if rest ≠ [] ∧ rest.all Char.isDigit = true then some (-(digitsToNat rest : Int)) else none
  | t =>
    if t ≠ [] ∧ t.all Char.isDigit = true then some (digitsToNat t) else none

/-! ## Data model (`data_models.py`) -/

/-- Declared properties of a schema column, read off the `db.Column(...)`
calls in `data_models.py`. -/
structure ColumnSpec where
  nullable : Bool
  unique : Bool
  primary_key : Bool
  deriving DecidableEq, Repr

/-- An `Author` row: `id` primary key, `name` non-null, `birth_date`
non-null, `date_of_death` nullable. -/
structure Author where
  id : Int
  name : String
  birth_date : Date
  date_of_death : Option Date
  deriving DecidableEq, Repr

/-- A `Book` row: `id` primary key, `title` non-null, `isbn` non-null,
`author_id` non-null foreign key to `author.id`. -/
structure Book where
  id : Int
  title : String
  isbn : String
  author_id : Int
  deriving DecidableEq, Repr

/-- `Book.isbn` column as declared: `db.String(150), nullable=False` — no
`unique=True` and no `UniqueConstraint` anywhere in `data_models.py`. -/
def Book.isbn_col : ColumnSpec :=
  { nullable := false, unique := false, primary_key := false }

/-- `Author.name` column as declared: `db.String(150), nullable=False`. -/
def Author.name_col : ColumnSpec :=
  { nullable := false, unique := false, primary_key := false }

/-- The relational store: the `author` and `book` tables plus the
autoincrement counters that generate primary keys. -/
structure DB where
  authors : List Author
  books : List Book
  next_author_id : Int
  next_book_id : Int
  deriving DecidableEq, Repr

/-- The store created by `db.create_all()` on first run: empty tables. -/
def emptyDB : DB :=
  { authors := [], books := [], next_author_id := 1, next_book_id := 1 }

/-! ## Handler outcomes -/

/-- Exceptions that a handler's `except Exception` branch can catch. -/
inductive Exc
  /-- `ValueError` from `strptime` or `int()` on malformed input. -/
  | valueError
  /-- `IntegrityError`: `commit()` violated a constraint SQLite enforces
  (primary key, NOT NULL).  No handler path in `app.py` actually raises
  it: the declared `Book.author_id` foreign key is not among the enforced
  constraints, since `PRAGMA foreign_keys=ON` is never issued. -/
  | integrityError
  /-- `NotFound` raised by `get_or_404` — a `werkzeug.exceptions.HTTPException`,
  which subclasses `Exception` and so is caught by the handler's `except`. -/
  | notFound
  deriving DecidableEq, Repr

/-- Result of one POST handler invocation. -/
inductive Outcome
  /-- A validation or duplicate check failed: `flash(msg)` and redirect back
  to the originating form. -/
  | reject (msg : String)
  /-- The `except Exception as e` branch ran: `db.session.rollback()`,
  `flash(f"Error ...: {e}")`, redirect. -/
  | error (e : Exc)
  /-- The insert/delete committed: redirect to `home`. -/
  | success
  deriving DecidableEq, Repr

/-! ## Handlers (`app.py`) -/

/-- Form fields posted to `/add_author`; `date_of_death` is `none` when the
field is absent (`request.form.get` returns `None`). -/
structure AuthorForm where
  name : String
  birth_date : String
  date_of_death : Option String
  deriving Repr

/-- Lines 91–97 of `app.py`: `date_of_death` starts as `None`; only when
`date_of_death_raw` is truthy (present and non-empty) is it parsed.  The
outer `none` models the `ValueError` from `strptime`. -/
def parseDod (raw : Option String) : Option (Option Date) :=
  match raw with
  | none => some none
  | some s =>
    if s = "" then some none
    else
      match parseDate s with
      | none => none
      | some d => some (some d)

/-- The duplicate check and insert at lines 113–130 of `app.py`:
`Author.query.filter_by(name=name, birth_date=birth_date).first()`,
reject on a hit, otherwise add and commit (the commit violates no declared
constraint: the generated primary key is fresh and all non-null fields are
set). -/
def authorInsert (db : DB) (name : String) (birth_date : Date)
    (date_of_death : Option Date) : Outcome × DB :=
  match db.authors.find? (fun a => decide (a.name = name ∧ a.birth_date = birth_date)) with
  | some _ => (.reject "Author already exists.", db)
  | none =>
    let a : Author :=
      { id := db.next_author_id, name := name, birth_date := birth_date,
        date_of_death := date_of_death }
    (.success,
      { db with authors := db.authors ++ [a], next_author_id := db.next_author_id + 1 })

/-- The POST branch of `add_author` (lines 84–135 of `app.py`). -/
def add_author (today : Date) (db : DB) (f : AuthorForm) : Outcome × DB :=
  let name := pyStrip f.name
  match parseDate f.birth_date with
  | none => (.error .valueError, db)
  | some birth_date =>
    match parseDod f.date_of_death with
    | none => (.error .valueError, db)
    | some date_of_death =>
      if is_in_future today birth_date then
        (.reject "Birth date cannot be in the future.", db)
      else
        match date_of_death with
        | some dod =>
          if is_in_future today dod then
            (.reject "Death date cannot be in the future.", db)
          else if dateLt dod birth_date then
            (.reject "Death date cannot be before birth date.", db)
          else authorInsert db name birth_date (some dod)
        | none => authorInsert db name birth_date none

/-- Form fields posted to `/add_book`. -/
structure BookForm where
  title : String
  isbn : String
  author_id : String
  deriving Repr

/-- The POST branch of `add_book` (lines 154–180 of `app.py`): strip title
and isbn, `int(...)` the author id, reject on a duplicate isbn
(`Book.query.filter_by(isbn=isbn).first()`), then add and commit.  The
commit succeeds even when `author_id` references no `author.id`: the
`ForeignKey` declared in `data_models.py` is not enforced at runtime,
because SQLite only checks foreign keys after `PRAGMA foreign_keys=ON`
and neither `app.py` nor Flask-SQLAlchemy ever issues it.  No author
check of any kind happens on this path. -/
def add_book (db : DB) (f : BookForm) : Outcome × DB :=
  let title := pyStrip f.title
  let isbn := pyStrip f.isbn
  match pyInt f.author_id with
  | none => (.error .valueError, db)
  | some author_id =>
    match db.books.find? (fun b => decide (b.isbn = isbn)) with
    | some _ => (.reject "Book with this ISBN already exists.", db)
    | none =>
      let b : Book :=
        { id := db.next_book_id, title := title, isbn := isbn, author_id := author_id }
      (.success,
        { db with books := db.books ++ [b], next_book_id := db.next_book_id + 1 })

/-- `delete_book` (lines 186–201 of `app.py`): `Book.query.get_or_404`
raises `NotFound` when no row has primary key `book_id`; since `NotFound`
subclasses `Exception`, the handler's own `except` catches it, rolls back
and flashes.  Otherwise the row is deleted and committed. -/
def delete_book (db : DB) (book_id : Int) : Outcome × DB :=
  match db.books.find? (fun b => decide (b.id = book_id)) with
  | none => (.error .notFound, db)
  | some _ =>
    (.success, { db with books := db.books.filter (fun b => decide (b.id ≠ book_id)) })

/-! ## HTTP responses -/

/-- A flash message attached to a redirect: either a fixed string from the
source, or the stringified exception `f"{label}{e}"` of an `except`
branch. -/
inductive Flash
  | text (s : String)
  | excOf (label : String) (e : Exc)
  deriving DecidableEq, Repr

/-- What the handler returns over HTTP. -/
inductive Response
  /-- `redirect(url_for(route))` after an optional `flash`: HTTP 302. -/
  | redirectTo (route : String) (flash : Option Flash)
  /-- A standard "not found" page: HTTP 404.  Produced only when a
  `NotFound` exception escapes the handler — none does in `app.py`. -/
  | notFoundPage
  deriving DecidableEq, Repr

/-- HTTP status code of a `Response`. -/
def Response.status : Response → Nat
  | .redirectTo _ _ => 302
  | .notFoundPage => 404

/-- The HTTP response `delete_book` produces for each outcome: both the
`except` branch (which catches the `NotFound` from `get_or_404`) and the
success path end in `redirect(url_for("home"))`. -/
def deleteBookResponse : Outcome → Response
  | .reject m => .redirectTo "home" (some (.text m))
  | .error e => .redirectTo "home" (some (.excOf "Error deleting book: " e))
  | .success => .redirectTo "home" none

/-! ## List/search (`home`, lines 54–69 of `app.py`) -/

/-- SQLite's ASCII-only case folding used by `LIKE`/`ilike`: `A`–`Z` map to
`a`–`z`, every other character is unchanged. -/
def sqlLower (c : Char) : Char :=
  if 'A' ≤ c ∧ c ≤ 'Z' then Char.ofNat (c.toNat + 32) else c

/-- SQL `LIKE` pattern matching on character lists: `%` matches any run of
characters (realised by trying every suffix of the string), `_` matches
exactly one character, anything else matches itself. -/
def likeMatch : List Char → List Char → Bool
  | [], s => s.isEmpty
  | '%' :: p', s => s.tails.any (fun t => likeMatch p' t)
  | _ :: _, [] => false
  | '_' :: p', _ :: s' => likeMatch p' s'
  | c :: p', c' :: s' => (c == c') && likeMatch p' s'

/-- `Book.title.ilike(f"%{query}%")`: case-insensitive `LIKE` with the
query wrapped in `%` wildcards. -/
def ilikeTitle (title query : String) : Bool :=
  likeMatch (('%' :: query.data ++ ['%']).map sqlLower) (title.data.map sqlLower)

/-- The `home` route: with a truthy `q` filter by
`Book.title.ilike(f"%{q}%")`, otherwise (absent or empty `q`) return all
books. -/
def home (db : DB) (q : Option String) : List Book :=
  match q with
  | none => db.books
  | some query =>
    if query = "" then db.books
    else db.books.filter (fun b => ilikeTitle b.title query)

/-- Case-insensitive substring containment, the spec's reading of search:
`q` occurs inside `title` under ASCII case folding. -/
def containsCI (title q : String) : Bool :=
  decide (List.IsInfix (q.data.map sqlLower) (title.data.map sqlLower))

/-! ## Reachable store states -/

/-- Store states reachable from the freshly created database through the
four handlers (any sequence, any inputs, any value of `date.today()`). -/
inductive Reachable : DB → Prop
  | init : Reachable emptyDB
  | addAuthor (today : Date) (f : AuthorForm) {db : DB} :
      Reachable db → Reachable (add_author today db f).2
  | addBook (f : BookForm) {db : DB} :
      Reachable db → Reachable (add_book db f).2
  | deleteBook (book_id : Int) {db : DB} :
      Reachable db → Reachable (delete_book db book_id).2

/-! ## Helper lemmas -/

/-- The duplicate-check-and-insert step leaves the store untouched on any
non-success outcome. -/
theorem authorInsert_ne_success (db : DB) (n : String) (b : Date) (dod : Option Date)
    (h : (authorInsert db n b dod).1 ≠ .success) : (authorInsert db n b dod).2 = db := by
  unfold authorInsert at *
  split at h
  · rfl
  · exact absurd rfl h

/-- Any rejected or failed `add_author` request leaves the store
untouched: every non-success path returns before `db.session.add`, or
rolls the session back. -/
theorem add_author_no_record_on_failure (today : Date) (db : DB) (f : AuthorForm)
    (h : (add_author today db f).1 ≠ .success) : (add_author today db f).2 = db := by
  unfold add_author at *
  dsimp only at h ⊢
  repeat' split at h
  all_goals try simp_all
  all_goals exact authorInsert_ne_success _ _ _ _ h

/-! ## C1: `add_author` validation sequence -/

/-- C1: `add_author` applies its checks in source order — parse the
date strings (a malformed one raises `ValueError`, the embedding's
ValidationError), then reject a future `birth_date`, then (when a death
date is present) reject a future `date_of_death`, then reject
`date_of_death < birth_date` — the first failing check fixes the flashed
message, and every rejected request leaves the store unchanged. -/
theorem add_author_validation_order (today : Date) (db : DB) (f : AuthorForm) :
    ((add_author today db f).1 ≠ .success → (add_author today db f).2 = db) ∧
    ((parseDate f.birth_date = none ∨ parseDod f.date_of_death = none) →
      (add_author today db f).1 = .error .valueError) ∧
    (∀ b dod, parseDate f.birth_date = some b → parseDod f.date_of_death = some dod →
      (is_in_future today b = true →
        (add_author today db f).1 = .reject "Birth date cannot be in the future.") ∧
      (∀ d, dod = some d → is_in_future today b = false → is_in_future today d = true →
        (add_author today db f).1 = .reject "Death date cannot be in the future.") ∧
      (∀ d, dod = some d → is_in_future today b = false → is_in_future today d = false →
        dateLt d b = true →
        (add_author today db f).1 = .reject "Death date cannot be before birth date.")) := by
  refine ⟨add_author_no_record_on_failure today db f, ?_, ?_⟩
  · intro h
    unfold add_author
    dsimp only
    (repeat' split) <;> simp_all
  · intro b dod hb hdod
    refine ⟨?_, ?_, ?_⟩
    · intro hfut
      unfold add_author
      dsimp only
      (repeat' split) <;> simp_all
    · intro d hd hb1 hd1
      unfold add_author
      dsimp only
      (repeat' split) <;> simp_all
    · intro d hd hb1 hd1 hlt
      unfold add_author
      dsimp only
      (repeat' split) <;> simp_all

/-- Witness for C1 at concrete inputs: a future birth date is rejected
with the birth-date message, a death date before the birth date with the
death-before-birth message, and a malformed birth date with the caught
`ValueError`, each leaving the empty store empty. -/
theorem add_author_validation_order_witness :
    (add_author ⟨2026, 10, 12⟩ emptyDB ⟨"X", "2999-01-01", none⟩).1
      = .reject "Birth date cannot be in the future." ∧
    (add_author ⟨2026, 10, 12⟩ emptyDB ⟨"X", "1990-01-01", some "1980-01-01"⟩).1
      = .reject "Death date cannot be before birth date." ∧
    (add_author ⟨2026, 10, 12⟩ emptyDB ⟨"X", "oops", none⟩).1 = .error .valueError ∧
    (add_author ⟨2026, 10, 12⟩ emptyDB ⟨"X", "2999-01-01", none⟩).2 = emptyDB := by
  refine ⟨?_, ?_, ?_, ?_⟩
  · exact ((add_author_validation_order ⟨2026, 10, 12⟩ emptyDB
      ⟨"X", "2999-01-01", none⟩).2.2 ⟨2999, 1, 1⟩ none rfl rfl).1 rfl
  · exact (((add_author_validation_order ⟨2026, 10, 12⟩ emptyDB
      ⟨"X", "1990-01-01", some "1980-01-01"⟩).2.2 ⟨1990, 1, 1⟩ (some ⟨1980, 1, 1⟩)
      rfl rfl).2.2 ⟨1980, 1, 1⟩ rfl rfl rfl rfl)
  · exact (add_author_validation_order ⟨2026, 10, 12⟩ emptyDB
      ⟨"X", "oops", none⟩).2.1 (Or.inl rfl)
  · exact (add_author_validation_order ⟨2026, 10, 12⟩ emptyDB
      ⟨"X", "2999-01-01", none⟩).1 (by decide)

/-! ## Character and LIKE-pattern lemmas -/

/-- `Char.ofNat` on a valid code point round-trips through `toNat`. -/
theorem toNat_ofNat_valid (n : Nat) (h : n.isValidChar) : (Char.ofNat n).toNat = n := by
  rw [Char.ofNat, dif_pos h]; rfl

/-- ASCII case folding never produces a `LIKE` wildcard from a
non-wildcard character. -/
theorem sqlLower_ne_wild (c : Char) (hp : c ≠ '%') (hu : c ≠ '_') :
    sqlLower c ≠ '%' ∧ sqlLower c ≠ '_' := by
  unfold sqlLower
  split
  · rename_i hr
    obtain ⟨h1, h2⟩ := hr
    simp only [Char.le_def, UInt32.le_def, BitVec.le_def] at h1 h2
    have h1' : 65 ≤ c.toNat := h1
    have h2' : c.toNat ≤ 90 := h2
    have hv : (c.toNat + 32).isValidChar := Or.inl (by omega)
    have h37 : Char.toNat '%' = 37 := rfl
    have h95 : Char.toNat '_' = 95 := rfl
    constructor <;> intro heq <;>
      [have := congrArg Char.toNat heq; have := congrArg Char.toNat heq] <;>
      rw [toNat_ofNat_valid _ hv] at this <;> omega
  · exact ⟨hp, hu⟩

/-- A pattern starting with `%` matches a string iff the rest of the
pattern matches some suffix. -/
theorem likeMatch_pct_iff (p s : List Char) :
    likeMatch ('%' :: p) s = true ↔ ∃ t, t <:+ s ∧ likeMatch p t = true := by
  simp [likeMatch, List.any_eq_true, List.mem_tails]

/-- A wildcard-free pattern followed by a single trailing `%` matches a
string iff the literal part is a prefix of it. -/
theorem likeMatch_literal_pct (q : List Char) (hq : ∀ c ∈ q, c ≠ '%' ∧ c ≠ '_') :
    ∀ s : List Char, (likeMatch (q ++ ['%']) s = true ↔ q <+: s) := by
  induction q with
  | nil =>
    intro s
    simp only [List.nil_append, List.nil_prefix, iff_true]
    rw [likeMatch_pct_iff]
    exact ⟨[], List.nil_suffix, rfl⟩
  | cons c q ih =>
    intro s
    obtain ⟨hc1, hc2⟩ := hq c (List.mem_cons_self c q)
    have hq' : ∀ c' ∈ q, c' ≠ '%' ∧ c' ≠ '_' := fun c' hc' => hq c' (List.mem_cons_of_mem c hc')
    cases s with
    | nil =>
      simp [likeMatch, hc1, hc2]
    | cons c' s' =>
      rw [List.cons_append]
      have heq : likeMatch (c :: (q ++ ['%'])) (c' :: s')
          = ((c == c') && likeMatch (q ++ ['%']) s') := by
        simp [likeMatch, hc1, hc2]
      rw [heq, List.cons_prefix_cons]
      rw [Bool.and_eq_true, beq_iff_eq, ih hq' s']

/-- On a search text free of `LIKE` wildcards, `ilike "%q%"` agrees with
case-insensitive substring containment. -/
theorem ilikeTitle_eq_containsCI (title q : String) (hq : ∀ c ∈ q.data, c ≠ '%' ∧ c ≠ '_') :
    ilikeTitle title q = containsCI title q := by
  unfold ilikeTitle containsCI
  have hmap : (('%' :: q.data ++ ['%']).map sqlLower)
      = '%' :: (q.data.map sqlLower ++ ['%']) := by
    simp [List.map_cons, List.map_append]
    rfl
  rw [hmap]
  have hq' : ∀ c ∈ q.data.map sqlLower, c ≠ '%' ∧ c ≠ '_' := by
    intro c hc
    obtain ⟨c0, hc0, rfl⟩ := List.mem_map.mp hc
    exact sqlLower_ne_wild c0 (hq c0 hc0).1 (hq c0 hc0).2
  have lhs_iff : likeMatch ('%' :: (q.data.map sqlLower ++ ['%'])) (title.data.map sqlLower) = true
      ↔ List.IsInfix (q.data.map sqlLower) (title.data.map sqlLower) := by
    rw [likeMatch_pct_iff]
    constructor
    · rintro ⟨t, hts, hm⟩
      have := (likeMatch_literal_pct _ hq' t).mp hm
      exact List.infix_iff_prefix_suffix.mpr ⟨t, this, hts⟩
    · intro h
      obtain ⟨t, hpre, hsuf⟩ := List.infix_iff_prefix_suffix.mp h
      exact ⟨t, hsuf, (likeMatch_literal_pct _ hq' t).mpr hpre⟩
  rw [Bool.eq_iff_iff, lhs_iff, decide_eq_true_eq]

/-! ## Handler case analyses -/

/-- Complete case analysis of `add_author`: either the request fails and
the store is untouched, or both dates parsed, every validation passed, no
duplicate `(name, birth_date)` existed, and exactly the new row was
appended. -/
theorem add_author_cases (today : Date) (db : DB) (f : AuthorForm) :
    ((add_author today db f).2 = db ∧ (add_author today db f).1 ≠ .success) ∨
    (∃ b dod, parseDate f.birth_date = some b ∧ parseDod f.date_of_death = some dod ∧
      is_in_future today b = false ∧
      (add_author today db f).1 = .success ∧
      db.authors.find? (fun a => decide (a.name = pyStrip f.name ∧ a.birth_date = b)) = none ∧
      (add_author today db f).2 =
        { db with
          authors := db.authors ++ [{ id := db.next_author_id, name := pyStrip f.name, birth_date := b, date_of_death := dod }],
          next_author_id := db.next_author_id + 1 }) := by
  unfold add_author authorInsert
  dsimp only
  (repeat' split) <;> simp_all

/-- Complete case analysis of `add_book`: either the request fails and the
store is untouched, or the author id parsed, no book had the stripped
isbn, and exactly the new row was appended — whether or not any author
with that id exists, since the declared foreign key goes unenforced. -/
theorem add_book_cases (db : DB) (g : BookForm) :
    ((add_book db g).2 = db ∧ (add_book db g).1 ≠ .success) ∨
    (∃ aid, pyInt g.author_id = some aid ∧
      db.books.find? (fun b => decide (b.isbn = pyStrip g.isbn)) = none ∧
      (add_book db g).1 = .success ∧
      (add_book db g).2 = { db with
          books := db.books ++ [{ id := db.next_book_id, title := pyStrip g.title, isbn := pyStrip g.isbn, author_id := aid }],
          next_book_id := db.next_book_id + 1 }) := by
  unfold add_book
  dsimp only
  (repeat' split) <;> simp_all

/-- Complete case analysis of `delete_book`: a missing id raises the
caught `NotFound` and the store is untouched; otherwise exactly the rows
with that primary key are removed. -/
theorem delete_book_cases (db : DB) (i : Int) :
    ((delete_book db i).1 = .error .notFound ∧ (delete_book db i).2 = db ∧
       db.books.find? (fun b => decide (b.id = i)) = none) ∨
    ((delete_book db i).1 = .success ∧
     (delete_book db i).2 = { db with books := db.books.filter (fun b => decide (b.id ≠ i)) } ∧
     ∃ bk, db.books.find? (fun b => decide (b.id = i)) = some bk) := by
  unfold delete_book
  (repeat' split) <;> simp_all

/-- `add_book` never touches the `author` table. -/
theorem add_book_authors (db : DB) (g : BookForm) : (add_book db g).2.authors = db.authors := by
  unfold add_book
  dsimp only
  (repeat' split) <;> rfl

/-- `delete_book` never touches the `author` table. -/
theorem delete_book_authors (db : DB) (i : Int) :
    (delete_book db i).2.authors = db.authors := by
  unfold delete_book
  (repeat' split) <;> rfl

/-- `add_author` never touches the `book` table. -/
theorem add_author_books (today : Date) (db : DB) (f : AuthorForm) :
    (add_author today db f).2.books = db.books := by
  unfold add_author authorInsert
  dsimp only
  (repeat' split) <;> rfl

/-! ## C2: list/search -/

/-- C2 fails as stated: the search text is spliced into a `LIKE` pattern
unescaped, so its `%`/`_` wildcards keep their pattern meaning.  With one
book titled `"abc"`, searching `q = "a_c"` returns that book even though
`"abc"` does not contain the substring `"a_c"` in any letter case. -/
theorem home_search_counterexample :
    home { authors := [], books := [{ id := 1, title := "abc", isbn := "1", author_id := 1 }],
           next_author_id := 1, next_book_id := 2 } (some "a_c")
      = [{ id := 1, title := "abc", isbn := "1", author_id := 1 }] ∧
    containsCI "abc" "a_c" = false := by
  constructor
  · decide
  · decide

/-- C2 (amended): for every store state and every non-empty search text
free of the `LIKE` wildcards `%` and `_`, the list/search operation
returns exactly the books whose title contains the text as a
case-insensitive unanchored substring; with no search text, or an empty
one (falsy in Python), it returns all books. -/
theorem home_search_exact (db : DB) (q : String) (hne : q ≠ "")
    (hq : ∀ c ∈ q.data, c ≠ '%' ∧ c ≠ '_') :
    home db (some q) = db.books.filter (fun b => containsCI b.title q) ∧
    home db none = db.books ∧
    home db (some "") = db.books := by
  refine ⟨?_, rfl, rfl⟩
  unfold home
  dsimp only
  rw [if_neg hne]
  exact List.filter_congr (fun b _ => ilikeTitle_eq_containsCI b.title q hq)

/-- Witness for C2 (amended) at the spec's own example: searching
`"abc"` over titles `"The ABCs"` and `"xyz"` returns exactly the books
whose title contains `"abc"` case-insensitively. -/
theorem home_search_exact_witness :
    ("abc" ≠ "" ∧ (∀ c ∈ "abc".data, c ≠ '%' ∧ c ≠ '_')) ∧
    home { authors := [], books := [{ id := 1, title := "The ABCs", isbn := "1", author_id := 1 },
                                    { id := 2, title := "xyz", isbn := "2", author_id := 1 }],
           next_author_id := 1, next_book_id := 3 } (some "abc")
      = List.filter (fun b => containsCI b.title "abc")
          [{ id := 1, title := "The ABCs", isbn := "1", author_id := 1 },
           { id := 2, title := "xyz", isbn := "2", author_id := 1 }] :=
  ⟨⟨by decide, by decide⟩,
   (home_search_exact _ "abc" (by decide) (by decide)).1⟩


/-! ## C3: Author (name, birth_date) uniqueness -/

/-- At most one author row exists for each `(name, birth_date)` pair. -/
def AuthorUnique (db : DB) : Prop :=
  db.authors.Pairwise (fun a b => ¬(a.name = b.name ∧ a.birth_date = b.birth_date))

/-- In a pairwise-distinct author table, the rows matching an existing
`(name, birth_date)` pair number exactly one. -/
theorem filter_pair_length_one {l : List Author} {n : String} {bd : Date}
    (hu : l.Pairwise (fun a b => ¬(a.name = b.name ∧ a.birth_date = b.birth_date)))
    (a : Author) (ha : a ∈ l) (han : a.name = n) (hab : a.birth_date = bd) :
    (l.filter (fun x => decide (x.name = n ∧ x.birth_date = bd))).length = 1 := by
  induction l with
  | nil => cases ha
  | cons hd tl ih =>
    rw [List.pairwise_cons] at hu
    obtain ⟨hhd, htl⟩ := hu
    rcases List.mem_cons.mp ha with rfl | hmem
    · rw [List.filter_cons, if_pos (by simp [han, hab])]
      have hnil : tl.filter (fun x => decide (x.name = n ∧ x.birth_date = bd)) = [] := by
        rw [List.filter_eq_nil_iff]
        intro x hx hpx
        rw [decide_eq_true_eq] at hpx
        exact hhd x hx ⟨han.trans hpx.1.symm, hab.trans hpx.2.symm⟩
      rw [hnil]
      rfl
    · have hhdf : ¬(hd.name = n ∧ hd.birth_date = bd) := by
        intro hp
        exact hhd a hmem ⟨hp.1.trans han.symm, hp.2.trans hab.symm⟩
      rw [List.filter_cons, if_neg (by simpa using hhdf)]
      exact ih htl hmem

/-- Appending a fresh `(name, birth_date)` pair preserves the uniqueness
invariant. -/
theorem authorUnique_append {db : DB} (hu : AuthorUnique db) (a : Author)
    (hfresh : ∀ x ∈ db.authors, ¬(x.name = a.name ∧ x.birth_date = a.birth_date)) :
    (db.authors ++ [a]).Pairwise (fun x y => ¬(x.name = y.name ∧ x.birth_date = y.birth_date)) := by
  rw [List.pairwise_append]
  refine ⟨hu, List.pairwise_singleton _ _, ?_⟩
  intro x hx y hy
  rw [List.mem_singleton] at hy
  subst hy
  exact hfresh x hx

/-- C3: a Create Author request that passes parsing and the date checks
but repeats the `(name, birth_date)` of a persisted author is rejected
with "Author already exists." and leaves the store unchanged (so, under
the uniqueness invariant, exactly one matching row remains), and every
operation preserves the invariant. -/
theorem author_pair_unique (today : Date) (db : DB) (f : AuthorForm) (g : BookForm)
    (i : Int) (b : Date) (dod : Option Date)
    (hb : parseDate f.birth_date = some b)
    (hdod : parseDod f.date_of_death = some dod)
    (hbf : is_in_future today b = false)
    (hdv : ∀ d, dod = some d → is_in_future today d = false ∧ dateLt d b = false)
    (hex : ∃ a ∈ db.authors, a.name = pyStrip f.name ∧ a.birth_date = b) :
    (add_author today db f).1 = .reject "Author already exists." ∧
    (add_author today db f).2 = db ∧
    (AuthorUnique db →
      ((add_author today db f).2.authors.filter
        (fun x => decide (x.name = pyStrip f.name ∧ x.birth_date = b))).length = 1) ∧
    (∀ db' : DB, AuthorUnique db' →
      AuthorUnique (add_author today db' f).2 ∧ AuthorUnique (add_book db' g).2 ∧
      AuthorUnique (delete_book db' i).2) := by
  have hrej : (add_author today db f).1 = .reject "Author already exists." ∧
      (add_author today db f).2 = db := by
    unfold add_author authorInsert
    dsimp only
    (repeat' split) <;> simp_all
    all_goals
      obtain ⟨a, ha, h1, h2⟩ := hex
      rename_i hfind
      exact absurd h2 (hfind a ha h1)
  refine ⟨hrej.1, hrej.2, ?_, ?_⟩
  · intro hu
    rw [hrej.2]
    obtain ⟨a, ha, h1, h2⟩ := hex
    exact filter_pair_length_one hu a ha h1 h2
  · intro db' hu'
    refine ⟨?_, ?_, ?_⟩
    · rcases add_author_cases today db' f with ⟨heq, _⟩ | ⟨b', dod', _, _, _, _, hfind, heq⟩
      · rw [heq]; exact hu'
      · rw [heq]
        unfold AuthorUnique
        dsimp only
        apply authorUnique_append hu'
        intro x hx hp
        rw [List.find?_eq_none] at hfind
        exact absurd (by simpa using hp) (by simpa using hfind x hx)
    · unfold AuthorUnique
      rw [add_book_authors]
      exact hu'
    · unfold AuthorUnique
      rw [delete_book_authors]
      exact hu'

/-- Witness for C3: with Jane Austen persisted, re-creating
`("Jane Austen", 1775-12-16)` is rejected with the duplicate message and
exactly one Jane Austen row remains. -/
theorem author_pair_unique_witness :
    (add_author ⟨2026, 10, 12⟩
        { authors := [⟨1, "Jane Austen", ⟨1775, 12, 16⟩, none⟩], books := [],
          next_author_id := 2, next_book_id := 1 }
        ⟨"Jane Austen", "1775-12-16", none⟩).1 = .reject "Author already exists." ∧
    ((add_author ⟨2026, 10, 12⟩
        { authors := [⟨1, "Jane Austen", ⟨1775, 12, 16⟩, none⟩], books := [],
          next_author_id := 2, next_book_id := 1 }
        ⟨"Jane Austen", "1775-12-16", none⟩).2.authors.filter
      (fun x => decide (x.name = pyStrip "Jane Austen" ∧ x.birth_date = ⟨1775, 12, 16⟩))).length = 1 := by
  have h := author_pair_unique ⟨2026, 10, 12⟩
    { authors := [⟨1, "Jane Austen", ⟨1775, 12, 16⟩, none⟩], books := [],
      next_author_id := 2, next_book_id := 1 }
    ⟨"Jane Austen", "1775-12-16", none⟩ ⟨"", "", ""⟩ 0 ⟨1775, 12, 16⟩ none
    rfl rfl rfl (fun d hd => nomatch hd)
    ⟨⟨1, "Jane Austen", ⟨1775, 12, 16⟩, none⟩, by simp, by decide, rfl⟩
  exact ⟨h.1, h.2.2.1 (by unfold AuthorUnique; decide)⟩



/-! ## C4: duplicate ISBN rejected -/

/-- C4: a Create Book request whose stripped isbn equals a persisted
book's isbn is rejected with "Book with this ISBN already exists." and the
store — in particular the original book — is unchanged. -/
theorem book_isbn_duplicate_rejected (db : DB) (g : BookForm) (aid : Int)
    (haid : pyInt g.author_id = some aid)
    (hex : ∃ bk ∈ db.books, bk.isbn = pyStrip g.isbn) :
    (add_book db g).1 = .reject "Book with this ISBN already exists." ∧
    (add_book db g).2 = db ∧
    (add_book db g).2.books = db.books := by
  have h : (add_book db g).1 = .reject "Book with this ISBN already exists." ∧
      (add_book db g).2 = db := by
    unfold add_book
    dsimp only
    (repeat' split) <;> simp_all
    all_goals
      obtain ⟨bk, hbk, h1⟩ := hex
      rename_i hfind
      exact absurd h1 (hfind bk hbk)
  exact ⟨h.1, h.2, by rw [h.2]⟩

/-- Witness for C4: with "Emma" (isbn "111") persisted, creating another
book with isbn "111" is rejected and the store still holds exactly the
original row. -/
theorem book_isbn_duplicate_rejected_witness :
    (add_book { authors := [⟨1, "Jane Austen", ⟨1775, 12, 16⟩, none⟩],
                books := [⟨1, "Emma", "111", 1⟩], next_author_id := 2, next_book_id := 2 }
              ⟨"Other", "111", "1"⟩).1 = .reject "Book with this ISBN already exists." ∧
    (add_book { authors := [⟨1, "Jane Austen", ⟨1775, 12, 16⟩, none⟩],
                books := [⟨1, "Emma", "111", 1⟩], next_author_id := 2, next_book_id := 2 }
              ⟨"Other", "111", "1"⟩).2.books = [⟨1, "Emma", "111", 1⟩] := by
  have h := book_isbn_duplicate_rejected
    { authors := [⟨1, "Jane Austen", ⟨1775, 12, 16⟩, none⟩],
      books := [⟨1, "Emma", "111", 1⟩], next_author_id := 2, next_book_id := 2 }
    ⟨"Other", "111", "1"⟩ 1 rfl ⟨⟨1, "Emma", "111", 1⟩, by simp, rfl⟩
  exact ⟨h.1, h.2.2⟩

/-! ## C5: delete of a missing id -/

/-- C5 and the code diverge: `get_or_404` does raise `NotFound` on a
missing id, but `NotFound` subclasses `Exception`, so `delete_book`'s own
`except Exception` catches it, rolls back, flashes
"Error deleting book: ..." and returns `redirect(url_for("home"))` —
an HTTP 302, not the standard 404 "not found" response the route's use of
`get_or_404` intends.  No stored data changes. -/
theorem delete_book_missing_id_behavior :
    (delete_book emptyDB 1).1 = .error .notFound ∧
    (delete_book emptyDB 1).2 = emptyDB ∧
    deleteBookResponse (delete_book emptyDB 1).1
      = .redirectTo "home" (some (.excOf "Error deleting book: " .notFound)) ∧
    (deleteBookResponse (delete_book emptyDB 1).1).status = 302 ∧
    Response.notFoundPage.status = 404 :=
  ⟨rfl, rfl, rfl, rfl, rfl⟩



/-! ## C8: delete removes exactly one row -/

/-- Removing the rows matching an id that occurs exactly once (as primary
keys do) shortens the table by exactly one. -/
theorem length_filter_ne_of_unique {l : List Book} {i : Int}
    (hu : l.Pairwise (fun x y => x.id ≠ y.id)) (bk : Book) (hbk : bk ∈ l) (hid : bk.id = i) :
    (l.filter (fun x => decide (x.id ≠ i))).length + 1 = l.length := by
  induction l with
  | nil => cases hbk
  | cons hd tl ih =>
    rw [List.pairwise_cons] at hu
    obtain ⟨hhd, htl⟩ := hu
    rcases List.mem_cons.mp hbk with rfl | hmem
    · rw [List.filter_cons, if_neg (by simp [hid])]
      have hall : tl.filter (fun x => decide (x.id ≠ i)) = tl := by
        rw [List.filter_eq_self]
        intro x hx
        simpa [hid] using (hhd x hx).symm
      rw [hall, List.length_cons]
    · have hne : hd.id ≠ i := fun hcon => (hhd bk hmem) (hcon.trans hid.symm)
      rw [List.filter_cons, if_pos (by simpa using hne), List.length_cons, List.length_cons]
      rw [Nat.add_right_cancel_iff]
      exact ih htl hmem

/-- C8: deleting an existing book id removes exactly the row with that
primary key: the author table is untouched, every book with a different
id survives, the deleted book is gone, and (ids being unique) the book
count drops by exactly one. -/
theorem delete_book_frame (db : DB) (i : Int) (bk : Book)
    (hbk : bk ∈ db.books) (hid : bk.id = i)
    (hids : db.books.Pairwise (fun x y => x.id ≠ y.id)) :
    (delete_book db i).1 = .success ∧
    (delete_book db i).2.authors = db.authors ∧
    (delete_book db i).2.books = db.books.filter (fun x => decide (x.id ≠ i)) ∧
    bk ∉ (delete_book db i).2.books ∧
    (∀ x ∈ db.books, x.id ≠ i → x ∈ (delete_book db i).2.books) ∧
    (delete_book db i).2.books.length + 1 = db.books.length := by
  rcases delete_book_cases db i with ⟨_, _, hnone⟩ | ⟨hsucc, heq, _⟩
  · rw [List.find?_eq_none] at hnone
    exact absurd (by simpa using hid) (by simpa using hnone bk hbk)
  · refine ⟨hsucc, by rw [heq], by rw [heq], ?_, ?_, ?_⟩
    · rw [heq]
      intro hmem
      dsimp only at hmem
      have := List.of_mem_filter hmem
      simp [hid] at this
    · intro x hx hxne
      rw [heq]
      dsimp only
      exact List.mem_filter.mpr ⟨hx, by simpa using hxne⟩
    · rw [heq]
      exact length_filter_ne_of_unique hids bk hbk hid

/-- Witness for C8, on the spec's concrete scenario: deleting Emma (book
id 1) empties the book table and leaves Jane Austen in place. -/
theorem delete_book_frame_witness :
    (delete_book { authors := [⟨1, "Jane Austen", ⟨1775, 12, 16⟩, none⟩],
                   books := [⟨1, "Emma", "111", 1⟩], next_author_id := 2, next_book_id := 2 } 1).1
      = .success ∧
    (delete_book { authors := [⟨1, "Jane Austen", ⟨1775, 12, 16⟩, none⟩],
                   books := [⟨1, "Emma", "111", 1⟩], next_author_id := 2, next_book_id := 2 } 1).2
      = { authors := [⟨1, "Jane Austen", ⟨1775, 12, 16⟩, none⟩], books := [],
          next_author_id := 2, next_book_id := 2 } := by
  have h := delete_book_frame
    { authors := [⟨1, "Jane Austen", ⟨1775, 12, 16⟩, none⟩],
      books := [⟨1, "Emma", "111", 1⟩], next_author_id := 2, next_book_id := 2 }
    1 ⟨1, "Emma", "111", 1⟩ (by simp) rfl (by simp)
  exact ⟨h.1, by decide⟩



/-! ## C7: foreign key to an existing author -/

/-- Referential integrity: every persisted book references a persisted
author row.  False of this program in general — see
`add_book_dangling_author_id_persists`. -/
def BooksHaveAuthors (db : DB) : Prop :=
  ∀ bk ∈ db.books, ∃ a ∈ db.authors, a.id = bk.author_id

/-- C7 and the program diverge: `add_book` never checks that `author_id`
names an existing author, and the `ForeignKey` declared in
`data_models.py` goes unenforced because `PRAGMA foreign_keys=ON` is
never issued on the SQLite connection.  Creating a book with
`author_id = 999` against an empty author table therefore commits and
redirects as success, persisting a book with a dangling reference — so a
reachable store state violates referential integrity, against both the
claim and the data model's own declared constraint. -/
theorem add_book_dangling_author_id_persists :
    (add_book emptyDB ⟨"Emma", "111", "999"⟩).1 = .success ∧
    (add_book emptyDB ⟨"Emma", "111", "999"⟩).2.books
      = [{ id := 1, title := "Emma", isbn := "111", author_id := 999 }] ∧
    (add_book emptyDB ⟨"Emma", "111", "999"⟩).2.authors = [] ∧
    Reachable (add_book emptyDB ⟨"Emma", "111", "999"⟩).2 ∧
    ¬ BooksHaveAuthors (add_book emptyDB ⟨"Emma", "111", "999"⟩).2 := by
  refine ⟨by decide, by decide, by decide,
    Reachable.addBook ⟨"Emma", "111", "999"⟩ Reachable.init, ?_⟩
  intro h
  have hb : ({ id := 1, title := "Emma", isbn := "111", author_id := 999 } : Book)
      ∈ (add_book emptyDB ⟨"Emma", "111", "999"⟩).2.books := by decide
  obtain ⟨a, ha, _⟩ := h _ hb
  have hauth : (add_book emptyDB ⟨"Emma", "111", "999"⟩).2.authors = [] := by decide
  rw [hauth] at ha
  cases ha

/-! ## C6: where uniqueness is enforced -/

/-- A direct insert into the `book` table enforcing exactly what SQLite
checks for this database at runtime: primary-key uniqueness and the
non-null columns (statically total in the embedded row type).  The schema
declares no `unique=True` and no `UniqueConstraint`, so no isbn check
appears here; the declared `author_id` foreign key is not checked either,
because `PRAGMA foreign_keys=ON` is never issued. -/
def schemaInsertBook (db : DB) (bk : Book) : Option DB :=
  if db.books.any (fun x => decide (x.id = bk.id)) then none
  else some { db with books := db.books ++ [bk] }

/-- A direct insert into the `author` table enforcing exactly the declared
schema: primary-key uniqueness and the non-null columns.  No uniqueness
constraint on `(name, birth_date)` is declared. -/
def schemaInsertAuthor (db : DB) (a : Author) : Option DB :=
  if db.authors.any (fun x => decide (x.id = a.id)) then none
  else some { db with authors := db.authors ++ [a] }

/-- Each isbn occurs on at most one book row. -/
def IsbnUnique (db : DB) : Prop :=
  db.books.Pairwise (fun x y => x.isbn ≠ y.isbn)

/-- C6 fails as stated: `data_models.py` declares no uniqueness constraint
for `Book.isbn` (nor for the author pair), so a schema-level insert of a
row colliding on isbn — the handler pre-check bypassed — succeeds rather
than failing at the persistence layer; likewise a duplicate
`(name, birth_date)` author row. -/
theorem isbn_schema_constraint_counterexample :
    Book.isbn_col.unique = false ∧ Author.name_col.unique = false ∧
    schemaInsertBook
      { authors := [⟨1, "A", ⟨1990, 1, 1⟩, none⟩], books := [⟨1, "T", "111", 1⟩],
        next_author_id := 2, next_book_id := 2 }
      ⟨2, "U", "111", 1⟩
      = some { authors := [⟨1, "A", ⟨1990, 1, 1⟩, none⟩],
               books := [⟨1, "T", "111", 1⟩, ⟨2, "U", "111", 1⟩],
               next_author_id := 2, next_book_id := 2 } ∧
    schemaInsertAuthor
      { authors := [⟨1, "A", ⟨1990, 1, 1⟩, none⟩], books := [],
        next_author_id := 2, next_book_id := 1 }
      ⟨2, "A", ⟨1990, 1, 1⟩, none⟩
      = some { authors := [⟨1, "A", ⟨1990, 1, 1⟩, none⟩, ⟨2, "A", ⟨1990, 1, 1⟩, none⟩],
               books := [], next_author_id := 2, next_book_id := 1 } := by
  refine ⟨rfl, rfl, by decide, by decide⟩

/-- C6 (amended): uniqueness of `Book.isbn` (and of the author
`(name, birth_date)` pair) is enforced only by the handlers'
application-level pre-checks — the persistence-layer schema declares no
uniqueness constraint for either — yet isbn remains unique across books
in every store state reachable through the handlers run sequentially. -/
theorem isbn_unique_app_level_only {db : DB} (h : Reachable db) :
    IsbnUnique db ∧ Book.isbn_col.unique = false ∧ Author.name_col.unique = false := by
  refine ⟨?_, rfl, rfl⟩
  induction h with
  | init => exact List.Pairwise.nil
  | addAuthor today f hr ih =>
    unfold IsbnUnique at *
    rwa [add_author_books]
  | addBook g hr ih =>
    rename_i db'
    unfold IsbnUnique at *
    rcases add_book_cases db' g with ⟨heq, _⟩ | ⟨aid, _, hfind, _, heq⟩
    · rwa [heq]
    · rw [heq]
      dsimp only
      rw [List.pairwise_append]
      refine ⟨ih, List.pairwise_singleton _ _, ?_⟩
      intro x hx y hy
      rw [List.mem_singleton] at hy
      subst hy
      rw [List.find?_eq_none] at hfind
      dsimp only
      simpa using hfind x hx
  | deleteBook i hr ih =>
    rename_i db'
    unfold IsbnUnique at *
    rcases delete_book_cases db' i with ⟨_, heq, _⟩ | ⟨_, heq, _⟩
    · rwa [heq]
    · rw [heq]
      exact List.Pairwise.sublist (List.filter_sublist _) ih

/-- Witness for C6 (amended): after creating Jane Austen and then Emma
through the handlers, the reachable store has pairwise-distinct isbns and
the schema still declares no uniqueness. -/
theorem isbn_unique_app_level_only_witness :
    IsbnUnique (add_book (add_author ⟨2026, 10, 12⟩ emptyDB
        ⟨"Jane Austen", "1775-12-16", none⟩).2 ⟨"Emma", "111", "1"⟩).2 ∧
    Book.isbn_col.unique = false ∧ Author.name_col.unique = false :=
  isbn_unique_app_level_only
    (Reachable.addBook ⟨"Emma", "111", "1"⟩
      (Reachable.addAuthor ⟨2026, 10, 12⟩ ⟨"Jane Austen", "1775-12-16", none⟩ Reachable.init))



/-! ## C9: empty names and titles -/

/-- `dropWhile` is idempotent. -/
theorem dropWhile_idem (p : Char → Bool) (l : List Char) :
    (l.dropWhile p).dropWhile p = l.dropWhile p := by
  induction l with
  | nil => rfl
  | cons c l ih =>
    rw [List.dropWhile_cons]
    split
    · exact ih
    · rename_i hc
      rw [List.dropWhile_cons, if_neg hc]

/-- A prefix of a `dropWhile`-fixed list is itself `dropWhile`-fixed. -/
theorem dropWhile_eq_self_of_prefix (p : Char → Bool) {m t : List Char}
    (hm : m.dropWhile p = m) (ht : t <+: m) : t.dropWhile p = t := by
  cases t with
  | nil => rfl
  | cons c t' =>
    obtain ⟨r, hr⟩ := ht
    have hpc : p c = false := by
      by_contra hpc
      rw [Bool.not_eq_false] at hpc
      rw [← hr, List.cons_append, List.dropWhile_cons, if_pos hpc] at hm
      have hlen := congrArg List.length hm
      have hle := (List.dropWhile_suffix (l := t' ++ r) p).length_le
      simp only [List.length_cons] at hlen
      omega
    rw [List.dropWhile_cons, if_neg (by simp [hpc])]

/-- Right-stripping yields a prefix of the input. -/
theorem rstrip_prefix_self (p : Char → Bool) (l : List Char) :
    (l.reverse.dropWhile p).reverse <+: l := by
  have h : l.reverse.dropWhile p <:+ l.reverse := List.dropWhile_suffix p
  have := List.reverse_prefix.mpr (by simpa using h)
  simpa using this

/-- Python `str.strip()` is idempotent. -/
theorem pyStrip_idem (s : String) : pyStrip (pyStrip s) = pyStrip s := by
  unfold pyStrip
  have hdata : (String.mk (((s.data.dropWhile pyIsSpace).reverse.dropWhile pyIsSpace).reverse)).data
      = ((s.data.dropWhile pyIsSpace).reverse.dropWhile pyIsSpace).reverse := rfl
  rw [hdata]
  have h1 : (((s.data.dropWhile pyIsSpace).reverse.dropWhile pyIsSpace).reverse).dropWhile pyIsSpace
      = ((s.data.dropWhile pyIsSpace).reverse.dropWhile pyIsSpace).reverse :=
    dropWhile_eq_self_of_prefix pyIsSpace (dropWhile_idem pyIsSpace s.data)
      (rstrip_prefix_self pyIsSpace (s.data.dropWhile pyIsSpace))
  rw [h1, List.reverse_reverse, dropWhile_idem]

/-- Every name and title persisted through the handlers is exactly the
whitespace-stripped submitted text: a fixed point of `pyStrip`. -/
def StrippedState (db : DB) : Prop :=
  (∀ a ∈ db.authors, pyStrip a.name = a.name) ∧
  (∀ bk ∈ db.books, pyStrip bk.title = bk.title)

/-- C9 fails as stated: the handlers strip whitespace but never check for
emptiness, and `nullable=False` only forbids NULL.  Creating an author
whose submitted name is all whitespace succeeds and persists the empty
name, and likewise a book with an empty title. -/
theorem nonempty_name_title_counterexample :
    (add_author ⟨2026, 10, 12⟩ emptyDB ⟨"   ", "1990-01-01", none⟩).1 = .success ∧
    (add_author ⟨2026, 10, 12⟩ emptyDB ⟨"   ", "1990-01-01", none⟩).2.authors
      = [{ id := 1, name := "", birth_date := ⟨1990, 1, 1⟩, date_of_death := none }] ∧
    (add_book { authors := [⟨1, "A", ⟨1990, 1, 1⟩, none⟩], books := [],
                next_author_id := 2, next_book_id := 1 } ⟨"", "111", "1"⟩).1 = .success ∧
    (add_book { authors := [⟨1, "A", ⟨1990, 1, 1⟩, none⟩], books := [],
                next_author_id := 2, next_book_id := 1 } ⟨"", "111", "1"⟩).2.books
      = [{ id := 1, title := "", isbn := "111", author_id := 1 }] := by
  refine ⟨by decide, by decide, by decide, by decide⟩

/-- C9 (amended): in every reachable store state each persisted author
name and book title equals the whitespace-stripped submitted text — it is
non-null and carries no surrounding whitespace — but emptiness is not
excluded: the handlers never reject empty text. -/
theorem names_titles_stripped {db : DB} (h : Reachable db) : StrippedState db := by
  induction h with
  | init => exact ⟨fun a ha => (nomatch ha), fun bk hbk => (nomatch hbk)⟩
  | addAuthor today f hr ih =>
    rename_i db'
    obtain ⟨iha, ihb⟩ := ih
    constructor
    · intro a ha
      rcases add_author_cases today db' f with ⟨heq, _⟩ | ⟨b, dod, _, _, _, _, _, heq⟩
      · rw [heq] at ha
        exact iha a ha
      · rw [heq] at ha
        dsimp only at ha
        rcases List.mem_append.mp ha with hold | hnew
        · exact iha a hold
        · rw [List.mem_singleton] at hnew
          subst hnew
          exact pyStrip_idem f.name
    · intro bk hbk
      rw [add_author_books] at hbk
      exact ihb bk hbk
  | addBook g hr ih =>
    rename_i db'
    obtain ⟨iha, ihb⟩ := ih
    constructor
    · intro a ha
      rw [add_book_authors] at ha
      exact iha a ha
    · intro bk hbk
      rcases add_book_cases db' g with ⟨heq, _⟩ | ⟨aid, _, _, _, heq⟩
      · rw [heq] at hbk
        exact ihb bk hbk
      · rw [heq] at hbk
        dsimp only at hbk
        rcases List.mem_append.mp hbk with hold | hnew
        · exact ihb bk hold
        · rw [List.mem_singleton] at hnew
          subst hnew
          exact pyStrip_idem g.title
  | deleteBook i hr ih =>
    rename_i db'
    obtain ⟨iha, ihb⟩ := ih
    constructor
    · intro a ha
      rw [delete_book_authors] at ha
      exact iha a ha
    · intro bk hbk
      rcases delete_book_cases db' i with ⟨_, heq, _⟩ | ⟨_, heq, _⟩
      · rw [heq] at hbk
        exact ihb bk hbk
      · rw [heq] at hbk
        dsimp only at hbk
        exact ihb bk (List.mem_of_mem_filter hbk)

/-- Witness for C9 (amended): in the reachable state holding Jane Austen
and Emma, every persisted name and title is its own stripped form. -/
theorem names_titles_stripped_witness :
    StrippedState (add_book (add_author ⟨2026, 10, 12⟩ emptyDB
      ⟨" Jane Austen ", "1775-12-16", none⟩).2 ⟨" Emma ", "111", "1"⟩).2 :=
  names_titles_stripped
    (Reachable.addBook ⟨" Emma ", "111", "1"⟩
      (Reachable.addAuthor ⟨2026, 10, 12⟩ ⟨" Jane Austen ", "1775-12-16", none⟩ Reachable.init))



/-! ## C10: whitespace stripping before validation and duplicate checks -/

/-- C10: both create handlers strip the submitted `name`, `title` and
`isbn` up front: the persisted row carries exactly the stripped text, and
each duplicate check compares the stripped value — an author collides iff
some row matches `(pyStrip name, birth_date)`, a book collides iff some
row carries `pyStrip isbn`. -/
theorem handlers_strip_inputs (today : Date) (db : DB) (f : AuthorForm) (g : BookForm)
    (b : Date) (dod : Option Date)
    (hb : parseDate f.birth_date = some b)
    (hdod : parseDod f.date_of_death = some dod)
    (hbf : is_in_future today b = false)
    (hdv : ∀ d, dod = some d → is_in_future today d = false ∧ dateLt d b = false) :
    ((add_author today db f).1 = .success →
      (add_author today db f).2.authors = db.authors ++
        [{ id := db.next_author_id, name := pyStrip f.name, birth_date := b, date_of_death := dod }]) ∧
    ((add_author today db f).1 = .reject "Author already exists." ↔
      ∃ a ∈ db.authors, a.name = pyStrip f.name ∧ a.birth_date = b) ∧
    (∀ aid, pyInt g.author_id = some aid →
      ((add_book db g).1 = .success →
        (add_book db g).2.books = db.books ++
          [{ id := db.next_book_id, title := pyStrip g.title, isbn := pyStrip g.isbn, author_id := aid }]) ∧
      ((add_book db g).1 = .reject "Book with this ISBN already exists." ↔
        ∃ bk ∈ db.books, bk.isbn = pyStrip g.isbn)) := by
  refine ⟨?_, ⟨?_, ?_⟩, ?_⟩
  · intro hsucc
    rcases add_author_cases today db f with ⟨_, hne⟩ | ⟨b', dod', hb', hdod', _, _, _, heq⟩
    · exact absurd hsucc hne
    · rw [hb] at hb'
      rw [hdod] at hdod'
      injection hb' with hb''
      injection hdod' with hdod''
      rw [heq, ← hb'', ← hdod'']
  · intro hrej
    unfold add_author authorInsert at hrej
    dsimp only at hrej
    repeat' split at hrej
    all_goals simp_all
    all_goals
      rename_i hfind
      exact ⟨_, List.mem_of_find?_eq_some hfind, by simpa using List.find?_some hfind⟩
  · intro hex
    unfold add_author authorInsert
    dsimp only
    (repeat' split) <;> simp_all
    all_goals
      obtain ⟨a, ha, h1, h2⟩ := hex
      rename_i hfind
      exact absurd h2 (hfind a ha h1)
  · intro aid haid
    constructor
    · intro hsucc
      rcases add_book_cases db g with ⟨_, hne⟩ | ⟨aid', haid', _, _, heq⟩
      · exact absurd hsucc hne
      · rw [haid] at haid'
        injection haid' with haid''
        rw [heq, ← haid'']
    · constructor
      · intro hrej
        unfold add_book at hrej
        dsimp only at hrej
        repeat' split at hrej
        all_goals simp_all
        rename_i hfind
        exact ⟨_, List.mem_of_find?_eq_some hfind, by simpa using List.find?_some hfind⟩
      · intro hex
        unfold add_book
        dsimp only
        (repeat' split) <;> simp_all
        all_goals
          obtain ⟨bk, hbk, h1⟩ := hex
          rename_i hfind
          exact absurd h1 (hfind bk hbk)

/-- Witness for C10: creating `" Jane Austen "` persists name
`"Jane Austen"`, and creating `" Emma "` with isbn `" 111 "` persists
title `"Emma"` and isbn `"111"`. -/
theorem handlers_strip_inputs_witness :
    (add_author ⟨2026, 10, 12⟩ emptyDB ⟨" Jane Austen ", "1775-12-16", none⟩).2.authors
      = [{ id := 1, name := pyStrip " Jane Austen ", birth_date := ⟨1775, 12, 16⟩, date_of_death := none }] ∧
    (add_book { authors := [⟨1, "Jane Austen", ⟨1775, 12, 16⟩, none⟩], books := [],
                next_author_id := 2, next_book_id := 1 } ⟨" Emma ", " 111 ", "1"⟩).2.books
      = [{ id := 1, title := pyStrip " Emma ", isbn := pyStrip " 111 ", author_id := 1 }] := by
  constructor
  · have h := (handlers_strip_inputs ⟨2026, 10, 12⟩ emptyDB
      ⟨" Jane Austen ", "1775-12-16", none⟩ ⟨"", "", ""⟩ ⟨1775, 12, 16⟩ none
      rfl rfl rfl (fun d hd => nomatch hd)).1 (by decide)
    simpa [emptyDB] using h
  · have h := ((handlers_strip_inputs ⟨2026, 10, 12⟩
      { authors := [⟨1, "Jane Austen", ⟨1775, 12, 16⟩, none⟩], books := [],
        next_author_id := 2, next_book_id := 1 }
      ⟨"X", "1990-01-01", none⟩ ⟨" Emma ", " 111 ", "1"⟩ ⟨1990, 1, 1⟩ none
      rfl rfl rfl (fun d hd => nomatch hd)).2.2 1 rfl).1 (by decide)
    simpa using h


end BookAlchemy
